import Mathlib

set_option autoImplicit false

/-!
Verification of the ensurepip wheel-bundling cache populator
(`Lib/ensurepip/_bundler.py` and its near-duplicate in
`Lib/ensurepip/__init__.py`).

The Python code is shallowly embedded: byte strings become `List Nat`,
the filesystem (the `_bundled` cache directory) becomes a function from
file names to optional byte strings, network fetching and possible I/O
faults are supplied by an explicit environment, and exceptions become an
error field threaded through the run.  The cryptographic digest
`hashlib.sha256(...).hexdigest()` and the URL helpers of `urllib.parse`
are code of this repository that is not part of the three files under
study, so the digest is kept abstract (a function parameter) and the URL
helpers are modelled from the specification.
-/

namespace Ensurepip

/-- A Python byte string: a list of byte values. -/
abbrev Bytes := List Nat

/-- The type of the hex-digest function standing in for
`hashlib.sha256(content).hexdigest()`.  `hashlib` is outside the three
source files, so every definition that calls it receives the digest
function explicitly. -/
abbrev HashFn := Bytes → String

/-- The Python exceptions the translated code can raise:
`TypeError`, `ValueError` (with its message), a network error raised by
`urllib.request.urlopen`, and any `OSError` other than
`FileNotFoundError` raised by filesystem access. -/
inductive PyError where
  | typeError
  | valueError (msg : String)
  | netError
  | osError
  deriving Repr, DecidableEq

deriving instance DecidableEq for Except

/-- Python's `str.strip()` with no argument: remove leading and trailing
whitespace. -/
def stripEnds (s : String) : String :=
  String.mk
    (((s.toList.dropWhile Char.isWhitespace).reverse.dropWhile
        Char.isWhitespace).reverse)

/-- Split a character list at every occurrence of `sep`, `cur` holding
the (reversed) characters of the piece under construction. -/
def splitCharAux (sep : Char) : List Char → List Char → List (List Char)
  | [], cur => [cur.reverse]
  | c :: rest, cur =>
      if c = sep then cur.reverse :: splitCharAux sep rest []
      else splitCharAux sep rest (c :: cur)

/-- Split `s` at every occurrence of the character `sep` (Python's
`s.split(sep)`). -/
def splitChar (s : String) (sep : Char) : List String :=
  (splitCharAux sep s.toList []).map String.mk

/-- Split `s` at the first occurrence of the character `sep`:
`(s, none)` when `sep` does not occur, otherwise the parts strictly
before and strictly after the first occurrence. -/
def splitFirst (s : String) (sep : Char) : String × Option String :=
  let l := s.toList
  match l.dropWhile (fun c => c ≠ sep) with
  | [] => (String.mk (l.takeWhile (fun c => c ≠ sep)), none)
  | _ :: rest => (String.mk (l.takeWhile (fun c => c ≠ sep)), some (String.mk rest))

/-- Characters allowed in a URL scheme (letters, digits, `+`, `-`, `.`). -/
def schemeChar (c : Char) : Bool :=
  c.isAlpha || c.isDigit || c == '+' || c == '-' || c == '.'

/-- The two components of `urllib.parse.urlsplit`'s result that the code
under study reads: the path and the fragment. -/
structure SplitResult where
  path : String
  fragment : String
  deriving Repr, DecidableEq

/-- Modelled from the spec: `urllib.parse.urlsplit` is code of this
repository outside the studied files.  Per the spec, the file name is
"the last path segment" and the hash comes from "the URL fragment", so
we model the split of `scheme://netloc/path?query#fragment`: the
fragment is everything after the first `#`; before it, a leading
`scheme:` (a nonempty run of scheme characters up to the first `:`) is
removed, then a leading `//netloc` (up to the next `/` or `?`), and the
path is what remains before the first `?`. -/
def urlsplit (url : String) : SplitResult :=
  let beforeFrag := (splitFirst url '#').1
  let fragment := ((splitFirst url '#').2).getD ""
  let afterScheme :=
    match splitFirst beforeFrag ':' with
    | (_, none) => beforeFrag
    | (pre, some rest) =>
        if pre ≠ "" ∧ pre.toList.all (fun c => schemeChar c) then rest
        else beforeFrag
  let afterNetloc :=
    match afterScheme.toList with
    | '/' :: '/' :: rest =>
        String.mk (rest.dropWhile (fun c => c ≠ '/' && c ≠ '?'))
    | _ => afterScheme
  ⟨(splitFirst afterNetloc '?').1, fragment⟩

/-- Modelled from the spec: `urllib.parse.parse_qs` is code of this
repository outside the studied files.  The spec describes it as parsing
the fragment "as a query-string-like structure": pairs are separated by
`&`, key and value by the first `=`; pairs with no `=` and pairs whose
value is empty are dropped (blank values are not kept, so a key that
occurs only with empty values is absent).  This returns the ordered list
of values for `key`, or `none` when the key is absent from the parsed
dictionary (as Python's `dict.get` returns `None`). -/
def parse_qs_get (qs : String) (key : String) : Option (List String) :=
  let vals := (splitChar qs '&').filterMap (fun p =>
    match splitFirst p '=' with
    | (_, none) => none
    | (k, some v) => if k = key ∧ v ≠ "" then some v else none)
  if vals.isEmpty then none else some vals

/-- The third component of Python's `s.rpartition(sep)` for a
one-character separator: the part after the last occurrence of `sep`,
or all of `s` when `sep` does not occur. -/
def rpartitionAfter (s : String) (sep : Char) : String :=
  String.mk ((s.toList.reverse.takeWhile (fun c => c ≠ sep)).reverse)

/-- The file name `_get_name_and_url` derives from a URL: the part of
the URL's path after the last `/`. -/
def urlName (url : String) : String :=
  rpartitionAfter (urlsplit url).path '/'

/-- The `ValueError` message raised by `_download` on a hash mismatch:
`f"The payload's hash is invalid for ``{url}``."`  (The apostrophe is
spelled via its code point to keep the file ASCII-clean.) -/
def invalidPayloadMsg (url : String) : String :=
  "The payload" ++ String.singleton (Char.ofNat 39) ++
    "s hash is invalid for ``" ++ url ++ "``."

namespace Bundler

/-- Translated from `_bundler.py`, `_extract_sha256_from_url_fragment`:
strips the URL's fragment, parses it as a query string and takes
`next(iter(parse_qs(fragment).get("sha256")), None)`.  When the key is
absent, `dict.get` returns `None` and `iter(None)` raises `TypeError`;
when present, the first value is returned. -/
def _extract_sha256_from_url_fragment (url : String) :
    Except PyError (Option String) :=
  let url_fragment := stripEnds (urlsplit url).fragment
  match parse_qs_get url_fragment "sha256" with
  | none => .error .typeError
  | some vs => .ok vs.head?

/-- Translated from `_bundler.py`, `_get_name_and_url`: the last path
segment of the URL, the URL itself, and the extracted hash. -/
def _get_name_and_url (url : String) :
    Except PyError (String × String × Option String) :=
  match _extract_sha256_from_url_fragment url with
  | .error e => .error e
  | .ok sha256 => .ok (urlName url, url, sha256)

/-- Translated from `_bundler.py`, `_is_content_sha256_valid`:
`sha256 is None or sha256 == hashlib.sha256(content).hexdigest()`,
with the digest function `H` passed explicitly. -/
def _is_content_sha256_valid (H : HashFn) (content : Bytes)
    (sha256 : Option String) : Bool :=
  match sha256 with
  | none => true
  | some h => h = H content

/-- Translated from `_bundler.py`, `_download`: fetch the URL contents
(`urllib.request.urlopen` is the injected `fetch`; its failure is a
network error), then raise `ValueError` naming the URL when the
downloaded content does not satisfy `_is_content_sha256_valid`. -/
def _download (H : HashFn) (fetch : String → Except Unit Bytes)
    (url : String) (sha256 : Option String) : Except PyError Bytes :=
  match fetch url with
  | .error _ => .error .netError
  | .ok resource_content =>
      if ¬ _is_content_sha256_valid H resource_content sha256 then
        .error (.valueError (invalidPayloadMsg url))
      else
        .ok resource_content

end Bundler

/-- The environment of a populator run: the digest function (for
`hashlib.sha256`), the network (`urllib.request.urlopen`, returning the
response body or failing), and injected filesystem faults: `readFault n`
means `read_bytes` on file `n` raises an `OSError` other than
`FileNotFoundError`, and `writeFault n` means `write_bytes` on file `n`
raises an `OSError`. -/
structure Env where
  H : HashFn
  fetch : String → Except Unit Bytes
  readFault : String → Bool
  writeFault : String → Bool

/-- The observable state of a populator run: the raised exception (if
any), the contents of the cache directory, the lines printed to
`sys.stderr` and to `sys.stdout`, and the URLs passed to
`urllib.request.urlopen`, in order. -/
structure RunResult where
  err : Option PyError
  fs : String → Option Bytes
  stderrLog : List String
  stdoutLog : List String
  fetchLog : List String

/-- Write `content` to file `name`: `Path.write_bytes`. -/
def setFile (fs : String → Option Bytes) (name : String) (content : Bytes) :
    String → Option Bytes :=
  fun m => if m = name then some content else fs m

/-- The `f"A valid ... Skipping download."` progress line. -/
def skipMsg (name : String) : String :=
  "A valid `" ++ name ++ "` is already present in cache. Skipping download."

/-- The `f"Downloading ..."` progress line. -/
def downloadingMsg (name : String) : String :=
  "Downloading `" ++ name ++ "`..."

/-- The `f"Saving ... to disk..."` progress line. -/
def savingMsg (name : String) : String :=
  "Saving `" ++ name ++ "` to disk..."

namespace Bundler

/-- Translated from `_bundler.py`, the body of the `for` loop of
`_ensure_wheels_are_downloaded`, for one URL of the list (the `map` over
`_PROJECT_URLS` is lazy, so `_get_name_and_url` runs here, when the loop
requests the element): read the cached bytes (`FileNotFoundError` is
swallowed as a cache miss; any other read fault propagates), skip when
`_is_content_sha256_valid` accepts the cached content, otherwise print,
fetch via `_download`, print, and write the verified bytes.  `verbosity`
is truthy when nonzero. -/
def processUrl (env : Env) (verbosity : Nat) (acc : RunResult)
    (url : String) : RunResult :=
  match _get_name_and_url url with
  | .error e => { acc with err := some e }
  | .ok (wheel_file_name, project_url, wheel_sha256) =>
    if env.readFault wheel_file_name then
      { acc with err := some .osError }
    else
      let cacheOk :=
        match acc.fs wheel_file_name with
        | some content => _is_content_sha256_valid env.H content wheel_sha256
        | none => false
      if cacheOk then
        { acc with stderrLog := acc.stderrLog ++
            (if verbosity ≠ 0 then [skipMsg wheel_file_name] else []) }
      else
        let acc1 := { acc with
          stderrLog := acc.stderrLog ++
            (if verbosity ≠ 0 then [downloadingMsg wheel_file_name] else []),
          fetchLog := acc.fetchLog ++ [project_url] }
        match _download env.H env.fetch project_url wheel_sha256 with
        | .error e => { acc1 with err := some e }
        | .ok content =>
          let acc2 := { acc1 with stderrLog := acc1.stderrLog ++
              (if verbosity ≠ 0 then [savingMsg wheel_file_name] else []) }
          if env.writeFault wheel_file_name then
            { acc2 with err := some .osError }
          else
            { acc2 with fs := setFile acc2.fs wheel_file_name content }

/-- The `for` loop of `_ensure_wheels_are_downloaded`: process the URLs
in order; a raised exception aborts the loop, leaving the remaining URLs
unprocessed. -/
def runFrom (env : Env) (verbosity : Nat) (acc : RunResult) :
    List String → RunResult
  | [] => acc
  | url :: rest =>
    let next := processUrl env verbosity acc url
    match next.err with
    | some _ => next
    | none => runFrom env verbosity next rest

/-- Translated from `_bundler.py`, `_ensure_wheels_are_downloaded`,
started on an explicit descriptor list and initial cache state.  The
source fixes the list to `_PROJECT_URLS` and the cache directory to the
`ensurepip/_bundled` resource directory; the spec's `ensure_cached`
contract passes the ordered descriptor list explicitly, which is what
`urls` is. -/
def _ensure_wheels_are_downloaded (env : Env) (verbosity : Nat)
    (urls : List String) (fs0 : String → Option Bytes) : RunResult :=
  runFrom env verbosity
    { err := none, fs := fs0, stderrLog := [], stdoutLog := [],
      fetchLog := [] } urls

end Bundler

namespace Pkg

/-- Translated from `__init__.py`, `_extract_sha256_from_url_fragment`
(the same code as the `_bundler.py` copy, with a function-local
`import urllib.parse`). -/
def _extract_sha256_from_url_fragment (url : String) :
    Except PyError (Option String) :=
  let url_fragment := stripEnds (urlsplit url).fragment
  match parse_qs_get url_fragment "sha256" with
  | none => .error .typeError
  | some vs => .ok vs.head?

/-- Translated from `__init__.py`, `_get_name_and_url`. -/
def _get_name_and_url (url : String) :
    Except PyError (String × String × Option String) :=
  match _extract_sha256_from_url_fragment url with
  | .error e => .error e
  | .ok sha256 => .ok (urlName url, url, sha256)

/-- Translated from `__init__.py`, `_is_content_sha256_valid` (the same
code as the `_bundler.py` copy, with a function-local
`import hashlib`). -/
def _is_content_sha256_valid (H : HashFn) (content : Bytes)
    (sha256 : Option String) : Bool :=
  match sha256 with
  | none => true
  | some h => h = H content

/-- Translated from `__init__.py`, `_download`. -/
def _download (H : HashFn) (fetch : String → Except Unit Bytes)
    (url : String) (sha256 : Option String) : Except PyError Bytes :=
  match fetch url with
  | .error _ => .error .netError
  | .ok resource_content =>
      if ¬ _is_content_sha256_valid H resource_content sha256 then
        .error (.valueError (invalidPayloadMsg url))
      else
        .ok resource_content

/-- Translated from `__init__.py`, the body of the `for` loop of
`_ensure_wheels_are_downloaded` (the same code as the `_bundler.py`
copy). -/
def processUrl (env : Env) (verbosity : Nat) (acc : RunResult)
    (url : String) : RunResult :=
  match _get_name_and_url url with
  | .error e => { acc with err := some e }
  | .ok (wheel_file_name, project_url, wheel_sha256) =>
    if env.readFault wheel_file_name then
      { acc with err := some .osError }
    else
      let cacheOk :=
        match acc.fs wheel_file_name with
        | some content => _is_content_sha256_valid env.H content wheel_sha256
        | none => false
      if cacheOk then
        { acc with stderrLog := acc.stderrLog ++
            (if verbosity ≠ 0 then [skipMsg wheel_file_name] else []) }
      else
        let acc1 := { acc with
          stderrLog := acc.stderrLog ++
            (if verbosity ≠ 0 then [downloadingMsg wheel_file_name] else []),
          fetchLog := acc.fetchLog ++ [project_url] }
        match _download env.H env.fetch project_url wheel_sha256 with
        | .error e => { acc1 with err := some e }
        | .ok content =>
          let acc2 := { acc1 with stderrLog := acc1.stderrLog ++
              (if verbosity ≠ 0 then [savingMsg wheel_file_name] else []) }
          if env.writeFault wheel_file_name then
            { acc2 with err := some .osError }
          else
            { acc2 with fs := setFile acc2.fs wheel_file_name content }

/-- Translated from `__init__.py`, the `for` loop of
`_ensure_wheels_are_downloaded`. -/
def runFrom (env : Env) (verbosity : Nat) (acc : RunResult) :
    List String → RunResult
  | [] => acc
  | url :: rest =>
    let next := processUrl env verbosity acc url
    match next.err with
    | some _ => next
    | none => runFrom env verbosity next rest

/-- Translated from `__init__.py`, `_ensure_wheels_are_downloaded`, on
an explicit descriptor list and initial cache state (as for the
`_bundler.py` copy). -/
def _ensure_wheels_are_downloaded (env : Env) (verbosity : Nat)
    (urls : List String) (fs0 : String → Option Bytes) : RunResult :=
  runFrom env verbosity
    { err := none, fs := fs0, stderrLog := [], stdoutLog := [],
      fetchLog := [] } urls

end Pkg

/-- Translated from `_bundler.py` (and, identically, `__init__.py`):
the fixed ordered pair of project URLs. -/
def _PROJECT_URLS : List String :=
  [ "https://files.pythonhosted.org/packages/c8/b0/" ++
    "cc6b7ba28d5fb790cf0d5946df849233e32b8872b6baca10c9e002ff5b41/" ++
    "setuptools-41.0.0-py2.py3-none-any.whl#" ++
    "sha256=e67486071cd5cdeba783bd0b64f5f30784ff855b35071c8670551fd7fc52d4a1",
    "https://files.pythonhosted.org/packages/d8/f3/" ++
    "413bab4ff08e1fc4828dfc59996d721917df8e8583ea85385d51125dceff/" ++
    "pip-19.0.3-py2.py3-none-any.whl#" ++
    "sha256=bd812612bbd8ba84159d9ddc0266b7fbce712fc9bc98c82dee5750546ec8ec64" ]

/-- The cache-validity test the loop body performs on file `n` against
expected hash `s`: the file exists and `_is_content_sha256_valid`
accepts its content (a missing file is a cache miss). -/
def cacheValid (env : Env) (fs : String → Option Bytes) (n : String)
    (s : Option String) : Bool :=
  match fs n with
  | some c => Bundler._is_content_sha256_valid env.H c s
  | none => false

/-! Concrete fixtures used by the witness theorems: a tiny injected
environment (digest function, network stub, no filesystem faults), one
or two descriptor URLs, and initial cache states. -/

/-- Witness digest function: maps the byte string `[1]` to `"aa"`, the
byte string `[2]` to `"bb"`, everything else to `"xx"`. -/
def wH : HashFn :=
  fun b => if b = [1] then "aa" else if b = [2] then "bb" else "xx"

/-- Witness environment: `wH` digest, network returning `[1]` for the
first fixture URL and `[2]` for the second, no filesystem faults. -/
def wEnv : Env :=
  { H := wH,
    fetch := fun u => if u = "https://h/p/f.whl#sha256=aa" then .ok [1]
      else if u = "https://h/q/g.whl#sha256=bb" then .ok [2]
      else .error (),
    readFault := fun _ => false,
    writeFault := fun _ => false }

/-- Witness environment variant whose network returns content that hashes to
`"xx"` for every URL, so any descriptor expecting another hash is
rejected after download. -/
def wEnvBad : Env :=
  { wEnv with fetch := fun _ => .ok [3] }

/-- First fixture URL: file `f.whl`, expected hash `aa`. -/
def wUrl1 : String := "https://h/p/f.whl#sha256=aa"

/-- Fixture URL whose expected hash is spelled in uppercase: the digest
of its content `[1]` is the lowercase `aa`, never the expected `AA`. -/
def wUrlUp : String := "https://h/p/f.whl#sha256=AA"

/-- Witness environment variant whose network returns `[1]` for every
URL (content digesting to the lowercase `aa`). -/
def wEnvUp : Env := { wEnv with fetch := fun _ => .ok [1] }

/-- Second fixture URL: file `g.whl`, expected hash `bb`. -/
def wUrl2 : String := "https://h/q/g.whl#sha256=bb"

/-- Empty initial cache. -/
def wFsEmpty : String → Option Bytes := fun _ => none

/-- Initial cache holding a stale `f.whl` whose content `[9]` hashes to
`"xx"`, not the expected `"aa"`. -/
def wFsStale : String → Option Bytes :=
  fun m => if m = "f.whl" then some [9] else none

/-- Initial cache holding a valid `f.whl` (content `[1]`, hash `"aa"`). -/
def wFsValid : String → Option Bytes :=
  fun m => if m = "f.whl" then some [1] else none

end Ensurepip

namespace Ensurepip

/-! ### Basic facts about the URL parser and the verifier -/

/-- A successful `_get_name_and_url` returns the URL's last path segment
as the file name and the URL itself as the second component. -/
theorem get_name_ok {url n u : String} {s : Option String}
    (h : Bundler._get_name_and_url url = .ok (n, u, s)) :
    n = urlName url ∧ u = url ∧
      Bundler._extract_sha256_from_url_fragment url = .ok s := by
  unfold Bundler._get_name_and_url at h
  cases hx : Bundler._extract_sha256_from_url_fragment url with
  | error e => rw [hx] at h; cases h
  | ok s' =>
      rw [hx] at h
      injection h with h'
      rw [Prod.mk.injEq] at h'
      obtain ⟨h1, h2⟩ := h'
      rw [Prod.mk.injEq] at h2
      obtain ⟨h2, h3⟩ := h2
      exact ⟨h1.symm, h2.symm, by rw [← h3]⟩

end Ensurepip

namespace Ensurepip

/-! ### Step lemmas: the six ways the loop body can behave -/

/-- Loop body, parse failure: the lazily mapped `_get_name_and_url`
raises while the loop requests the element. -/
theorem processUrl_parse_error {env : Env} {v : Nat} {acc : RunResult}
    {url : String} {e : PyError}
    (h : Bundler._get_name_and_url url = .error e) :
    Bundler.processUrl env v acc url = { acc with err := some e } := by
  unfold Bundler.processUrl
  rw [h]

/-- Loop body, read fault: `read_bytes` raises an `OSError` other than
`FileNotFoundError`, which is not caught. -/
theorem processUrl_read_fault {env : Env} {v : Nat} {acc : RunResult}
    {url n : String} {s : Option String}
    (hp : Bundler._get_name_and_url url = .ok (n, url, s))
    (hr : env.readFault n = true) :
    Bundler.processUrl env v acc url = { acc with err := some .osError } := by
  unfold Bundler.processUrl
  rw [hp]
  simp [hr]

/-- Loop body, valid cache: the file exists, the verifier accepts it,
and the descriptor is skipped with no fetch and no write. -/
theorem processUrl_skip {env : Env} {v : Nat} {acc : RunResult}
    {url n : String} {s : Option String} {c : Bytes}
    (hp : Bundler._get_name_and_url url = .ok (n, url, s))
    (hr : env.readFault n = false)
    (hfs : acc.fs n = some c)
    (hv : Bundler._is_content_sha256_valid env.H c s = true) :
    Bundler.processUrl env v acc url =
      { acc with stderrLog := acc.stderrLog ++
          (if v ≠ 0 then [skipMsg n] else []) } := by
  unfold Bundler.processUrl
  rw [hp]
  simp [hr, hfs, hv]

/-- Loop body, cache miss then network failure: `urlopen` raises. -/
theorem processUrl_net_error {env : Env} {v : Nat} {acc : RunResult}
    {url n : String} {s : Option String}
    (hp : Bundler._get_name_and_url url = .ok (n, url, s))
    (hr : env.readFault n = false)
    (hmiss : acc.fs n = none ∨ ∃ c, acc.fs n = some c ∧
      Bundler._is_content_sha256_valid env.H c s = false)
    (hf : env.fetch url = .error ()) :
    Bundler.processUrl env v acc url =
      { acc with
          stderrLog := acc.stderrLog ++
            (if v ≠ 0 then [downloadingMsg n] else []),
          fetchLog := acc.fetchLog ++ [url],
          err := some .netError } := by
  unfold Bundler.processUrl
  rw [hp]
  rcases hmiss with hnone | ⟨c, hc, hv⟩
  · simp [hr, hnone, Bundler._download, hf]
  · simp [hr, hc, hv, Bundler._download, hf]

/-- Loop body, cache miss then integrity failure: the downloaded bytes
do not satisfy the verifier, `_download` raises `ValueError` naming the
URL, and nothing is written. -/
theorem processUrl_bad_hash {env : Env} {v : Nat} {acc : RunResult}
    {url n : String} {s : Option String} {b : Bytes}
    (hp : Bundler._get_name_and_url url = .ok (n, url, s))
    (hr : env.readFault n = false)
    (hmiss : acc.fs n = none ∨ ∃ c, acc.fs n = some c ∧
      Bundler._is_content_sha256_valid env.H c s = false)
    (hf : env.fetch url = .ok b)
    (hv : Bundler._is_content_sha256_valid env.H b s = false) :
    Bundler.processUrl env v acc url =
      { acc with
          stderrLog := acc.stderrLog ++
            (if v ≠ 0 then [downloadingMsg n] else []),
          fetchLog := acc.fetchLog ++ [url],
          err := some (.valueError (invalidPayloadMsg url)) } := by
  unfold Bundler.processUrl
  rw [hp]
  rcases hmiss with hnone | ⟨c, hc, hcv⟩
  · simp [hr, hnone, Bundler._download, hf, hv]
  · simp [hr, hc, hcv, Bundler._download, hf, hv]

/-- Loop body, cache miss then verified download but failing write:
`write_bytes` raises. -/
theorem processUrl_write_fault {env : Env} {v : Nat} {acc : RunResult}
    {url n : String} {s : Option String} {b : Bytes}
    (hp : Bundler._get_name_and_url url = .ok (n, url, s))
    (hr : env.readFault n = false)
    (hmiss : acc.fs n = none ∨ ∃ c, acc.fs n = some c ∧
      Bundler._is_content_sha256_valid env.H c s = false)
    (hf : env.fetch url = .ok b)
    (hv : Bundler._is_content_sha256_valid env.H b s = true)
    (hw : env.writeFault n = true) :
    Bundler.processUrl env v acc url =
      { acc with
          stderrLog := (acc.stderrLog ++
              (if v ≠ 0 then [downloadingMsg n] else [])) ++
            (if v ≠ 0 then [savingMsg n] else []),
          fetchLog := acc.fetchLog ++ [url],
          err := some .osError } := by
  unfold Bundler.processUrl
  rw [hp]
  rcases hmiss with hnone | ⟨c, hc, hcv⟩
  · simp [hr, hnone, Bundler._download, hf, hv, hw]
  · simp [hr, hc, hcv, Bundler._download, hf, hv, hw]

/-- Loop body, cache miss then verified download and successful write:
the verified bytes overwrite the cache file. -/
theorem processUrl_write {env : Env} {v : Nat} {acc : RunResult}
    {url n : String} {s : Option String} {b : Bytes}
    (hp : Bundler._get_name_and_url url = .ok (n, url, s))
    (hr : env.readFault n = false)
    (hmiss : acc.fs n = none ∨ ∃ c, acc.fs n = some c ∧
      Bundler._is_content_sha256_valid env.H c s = false)
    (hf : env.fetch url = .ok b)
    (hv : Bundler._is_content_sha256_valid env.H b s = true)
    (hw : env.writeFault n = false) :
    Bundler.processUrl env v acc url =
      { acc with
          stderrLog := (acc.stderrLog ++
              (if v ≠ 0 then [downloadingMsg n] else [])) ++
            (if v ≠ 0 then [savingMsg n] else []),
          fetchLog := acc.fetchLog ++ [url],
          fs := setFile acc.fs n b } := by
  unfold Bundler.processUrl
  rw [hp]
  rcases hmiss with hnone | ⟨c, hc, hcv⟩
  · simp [hr, hnone, Bundler._download, hf, hv, hw]
  · simp [hr, hc, hcv, Bundler._download, hf, hv, hw]

end Ensurepip

namespace Ensurepip

/-! ### A master case analysis of the loop body, and frame lemmas -/

/-- Every run of the loop body has one of five shapes: an immediate
error that changes nothing else (parse or read fault), a skip, a fetch
that errors (network or integrity), a fetch whose write errors, or a
fetch followed by a successful write.  In every non-error shape the file
the body touches is named by the URL's last path segment. -/
theorem processUrl_shape (env : Env) (v : Nat) (acc : RunResult)
    (url : String) :
    (∃ e, Bundler.processUrl env v acc url = { acc with err := some e }) ∨
    (Bundler.processUrl env v acc url =
        { acc with stderrLog := acc.stderrLog ++
            (if v ≠ 0 then [skipMsg (urlName url)] else []) } ∨
     (∃ e, Bundler.processUrl env v acc url =
        { acc with
            stderrLog := acc.stderrLog ++
              (if v ≠ 0 then [downloadingMsg (urlName url)] else []),
            fetchLog := acc.fetchLog ++ [url],
            err := some e }) ∨
     (∃ e, Bundler.processUrl env v acc url =
        { acc with
            stderrLog := (acc.stderrLog ++
                (if v ≠ 0 then [downloadingMsg (urlName url)] else [])) ++
              (if v ≠ 0 then [savingMsg (urlName url)] else []),
            fetchLog := acc.fetchLog ++ [url],
            err := some e }) ∨
     (∃ b, Bundler.processUrl env v acc url =
        { acc with
            stderrLog := (acc.stderrLog ++
                (if v ≠ 0 then [downloadingMsg (urlName url)] else [])) ++
              (if v ≠ 0 then [savingMsg (urlName url)] else []),
            fetchLog := acc.fetchLog ++ [url],
            fs := setFile acc.fs (urlName url) b })) := by
  cases hp : Bundler._get_name_and_url url with
  | error e => exact Or.inl ⟨e, processUrl_parse_error hp⟩
  | ok d =>
    obtain ⟨n, u, s⟩ := d
    obtain ⟨hn, hu, -⟩ := get_name_ok hp
    subst hn; subst hu
    by_cases hr : env.readFault (urlName u) = true
    · exact Or.inl ⟨.osError, processUrl_read_fault hp hr⟩
    · have hr' : env.readFault (urlName u) = false := by
        simpa using hr
      by_cases hvalid : ∃ c, acc.fs (urlName u) = some c ∧
          Bundler._is_content_sha256_valid env.H c s = true
      · obtain ⟨c, hfs, hv⟩ := hvalid
        exact Or.inr (Or.inl (processUrl_skip hp hr' hfs hv))
      · have hmiss : acc.fs (urlName u) = none ∨
            ∃ c, acc.fs (urlName u) = some c ∧
              Bundler._is_content_sha256_valid env.H c s = false := by
          cases hfs : acc.fs (urlName u) with
          | none => exact Or.inl rfl
          | some c =>
            cases hv : Bundler._is_content_sha256_valid env.H c s with
            | false => exact Or.inr ⟨c, rfl, hv⟩
            | true => exact absurd ⟨c, hfs, hv⟩ hvalid
        cases hf : env.fetch u with
        | error e0 =>
          cases e0
          exact Or.inr (Or.inr (Or.inl
            ⟨.netError, processUrl_net_error hp hr' hmiss hf⟩))
        | ok b =>
          cases hvb : Bundler._is_content_sha256_valid env.H b s with
          | false =>
            exact Or.inr (Or.inr (Or.inl
              ⟨.valueError (invalidPayloadMsg u),
               processUrl_bad_hash hp hr' hmiss hf hvb⟩))
          | true =>
            by_cases hw : env.writeFault (urlName u) = true
            · exact Or.inr (Or.inr (Or.inr (Or.inl
                ⟨.osError, processUrl_write_fault hp hr' hmiss hf hvb hw⟩)))
            · have hw' : env.writeFault (urlName u) = false := by simpa using hw
              exact Or.inr (Or.inr (Or.inr (Or.inr
                ⟨b, processUrl_write hp hr' hmiss hf hvb hw'⟩)))

end Ensurepip

namespace Ensurepip

/-! ### Frame lemmas for one step -/

/-- The loop body never prints to standard output. -/
theorem processUrl_stdout (env : Env) (v : Nat) (acc : RunResult)
    (url : String) :
    (Bundler.processUrl env v acc url).stdoutLog = acc.stdoutLog := by
  rcases processUrl_shape env v acc url with
    ⟨e, h⟩ | h | ⟨e, h⟩ | ⟨e, h⟩ | ⟨b, h⟩ <;> simp [h]

/-- At verbosity 0 the loop body prints nothing at all. -/
theorem processUrl_silent (env : Env) (acc : RunResult) (url : String) :
    (Bundler.processUrl env 0 acc url).stderrLog = acc.stderrLog := by
  rcases processUrl_shape env 0 acc url with
    ⟨e, h⟩ | h | ⟨e, h⟩ | ⟨e, h⟩ | ⟨b, h⟩ <;> simp [h]

/-- The loop body writes no file other than the one named by its URL's
last path segment. -/
theorem processUrl_fs_frame (env : Env) (v : Nat) (acc : RunResult)
    (url : String) {m : String} (hm : m ≠ urlName url) :
    (Bundler.processUrl env v acc url).fs m = acc.fs m := by
  rcases processUrl_shape env v acc url with
    ⟨e, h⟩ | h | ⟨e, h⟩ | ⟨e, h⟩ | ⟨b, h⟩ <;> simp [h, setFile, hm]

/-- The loop body appends either nothing or exactly its own URL to the
fetch log. -/
theorem processUrl_fetchLog (env : Env) (v : Nat) (acc : RunResult)
    (url : String) :
    (Bundler.processUrl env v acc url).fetchLog = acc.fetchLog ∨
    (Bundler.processUrl env v acc url).fetchLog = acc.fetchLog ++ [url] := by
  rcases processUrl_shape env v acc url with
    ⟨e, h⟩ | h | ⟨e, h⟩ | ⟨e, h⟩ | ⟨b, h⟩ <;> simp [h]

/-- A loop-body step that raises no exception either skipped a valid
cache entry or wrote verified bytes. -/
theorem processUrl_ok_shape (env : Env) (v : Nat) (acc : RunResult)
    (url : String)
    (h : (Bundler.processUrl env v acc url).err = none) :
    Bundler.processUrl env v acc url =
      { acc with stderrLog := acc.stderrLog ++
          (if v ≠ 0 then [skipMsg (urlName url)] else []) } ∨
    ∃ b, Bundler.processUrl env v acc url =
      { acc with
          stderrLog := (acc.stderrLog ++
              (if v ≠ 0 then [downloadingMsg (urlName url)] else [])) ++
            (if v ≠ 0 then [savingMsg (urlName url)] else []),
          fetchLog := acc.fetchLog ++ [url],
          fs := setFile acc.fs (urlName url) b } := by
  rcases processUrl_shape env v acc url with
    ⟨e, hh⟩ | hh | ⟨e, hh⟩ | ⟨e, hh⟩ | ⟨b, hh⟩
  · rw [hh] at h; cases h
  · exact Or.inl hh
  · rw [hh] at h; cases h
  · rw [hh] at h; cases h
  · exact Or.inr ⟨b, hh⟩

/-! ### The loop: stopping, composing, and frame lemmas -/

/-- The loop on an empty list does nothing. -/
theorem runFrom_nil (env : Env) (v : Nat) (acc : RunResult) :
    Bundler.runFrom env v acc [] = acc := rfl

/-- A step that raises stops the loop: the remaining list is not
processed. -/
theorem runFrom_cons_stop {env : Env} {v : Nat} {acc : RunResult}
    {u : String} {rest : List String} {e : PyError}
    (h : (Bundler.processUrl env v acc u).err = some e) :
    Bundler.runFrom env v acc (u :: rest) =
      Bundler.processUrl env v acc u := by
  simp only [Bundler.runFrom, h]

/-- A step that does not raise lets the loop continue on the rest. -/
theorem runFrom_cons_go {env : Env} {v : Nat} {acc : RunResult}
    {u : String} {rest : List String}
    (h : (Bundler.processUrl env v acc u).err = none) :
    Bundler.runFrom env v acc (u :: rest) =
      Bundler.runFrom env v (Bundler.processUrl env v acc u) rest := by
  simp only [Bundler.runFrom, h]

/-- If the whole loop ends clean, its first step ended clean. -/
theorem runFrom_cons_err_none {env : Env} {v : Nat} {acc : RunResult}
    {u : String} {rest : List String}
    (h : (Bundler.runFrom env v acc (u :: rest)).err = none) :
    (Bundler.processUrl env v acc u).err = none := by
  cases he : (Bundler.processUrl env v acc u).err with
  | none => rfl
  | some e => rw [runFrom_cons_stop he, he] at h; cases h

/-- Splitting the processed list: the loop over `l1 ++ l2` is the loop
over `l1` followed, when that ended clean, by the loop over `l2`. -/
theorem runFrom_append (env : Env) (v : Nat) :
    ∀ (l1 l2 : List String) (acc : RunResult), acc.err = none →
    Bundler.runFrom env v acc (l1 ++ l2) =
      (if (Bundler.runFrom env v acc l1).err = none
       then Bundler.runFrom env v (Bundler.runFrom env v acc l1) l2
       else Bundler.runFrom env v acc l1) := by
  intro l1
  induction l1 with
  | nil =>
    intro l2 acc ha
    rw [List.nil_append, runFrom_nil, if_pos ha]
  | cons u t ih =>
    intro l2 acc ha
    cases he : (Bundler.processUrl env v acc u).err with
    | some e =>
      rw [List.cons_append, runFrom_cons_stop he, runFrom_cons_stop he,
        if_neg (by rw [he]; exact fun hc => Option.noConfusion hc)]
    | none =>
      rw [List.cons_append, runFrom_cons_go he, runFrom_cons_go he,
        ih l2 (Bundler.processUrl env v acc u) he]

/-- A loop run that raised did so at one descriptor: the list splits
into a cleanly processed first part, the failing descriptor, and an
unprocessed remainder. -/
theorem runFrom_error_split (env : Env) (v : Nat) :
    ∀ (urls : List String) (acc : RunResult), acc.err = none →
    ∀ e, (Bundler.runFrom env v acc urls).err = some e →
    ∃ l1 u l2, urls = l1 ++ u :: l2 ∧
      (Bundler.runFrom env v acc l1).err = none ∧
      Bundler.runFrom env v acc urls =
        Bundler.processUrl env v (Bundler.runFrom env v acc l1) u := by
  intro urls
  induction urls with
  | nil =>
    intro acc ha e he
    rw [runFrom_nil] at he
    rw [ha] at he
    cases he
  | cons u t ih =>
    intro acc ha e he
    cases hs : (Bundler.processUrl env v acc u).err with
    | some e1 =>
      refine ⟨[], u, t, rfl, ?_, ?_⟩
      · rw [runFrom_nil]; exact ha
      · rw [runFrom_cons_stop hs, runFrom_nil]
    | none =>
      rw [runFrom_cons_go hs] at he
      obtain ⟨l1, u1, l2, hsplit, hclean, heq⟩ :=
        ih (Bundler.processUrl env v acc u) hs e he
      refine ⟨u :: l1, u1, l2, by rw [hsplit]; rfl, ?_, ?_⟩
      · rw [runFrom_cons_go hs]; exact hclean
      · rw [runFrom_cons_go hs, heq, runFrom_cons_go hs]

/-- The loop never prints to standard output. -/
theorem runFrom_stdout (env : Env) (v : Nat) :
    ∀ (urls : List String) (acc : RunResult),
    (Bundler.runFrom env v acc urls).stdoutLog = acc.stdoutLog := by
  intro urls
  induction urls with
  | nil => intro acc; rfl
  | cons u rest ih =>
    intro acc
    cases he : (Bundler.processUrl env v acc u).err with
    | some e => rw [runFrom_cons_stop he, processUrl_stdout]
    | none => rw [runFrom_cons_go he, ih, processUrl_stdout]

/-- At verbosity 0 the loop prints nothing at all. -/
theorem runFrom_silent (env : Env) :
    ∀ (urls : List String) (acc : RunResult),
    (Bundler.runFrom env 0 acc urls).stderrLog = acc.stderrLog := by
  intro urls
  induction urls with
  | nil => intro acc; rfl
  | cons u rest ih =>
    intro acc
    cases he : (Bundler.processUrl env 0 acc u).err with
    | some e => rw [runFrom_cons_stop he, processUrl_silent]
    | none => rw [runFrom_cons_go he, ih, processUrl_silent]

/-- The loop writes no file whose name is not the last path segment of
one of its URLs. -/
theorem runFrom_fs_frame (env : Env) (v : Nat) {m : String} :
    ∀ (urls : List String) (acc : RunResult),
    (∀ u ∈ urls, m ≠ urlName u) →
    (Bundler.runFrom env v acc urls).fs m = acc.fs m := by
  intro urls
  induction urls with
  | nil => intro acc _; rfl
  | cons u rest ih =>
    intro acc hm
    cases he : (Bundler.processUrl env v acc u).err with
    | some e =>
      rw [runFrom_cons_stop he,
        processUrl_fs_frame env v acc u (hm u (by simp))]
    | none =>
      rw [runFrom_cons_go he,
        ih (Bundler.processUrl env v acc u) (fun x hx => hm x (by simp [hx])),
        processUrl_fs_frame env v acc u (hm u (by simp))]

/-- URLs absent from the processed list are never fetched: the loop does
not change their multiplicity in the fetch log. -/
theorem runFrom_count_frame (env : Env) (v : Nat) (x : String) :
    ∀ (urls : List String) (acc : RunResult),
    (∀ u ∈ urls, u ≠ x) →
    (Bundler.runFrom env v acc urls).fetchLog.count x =
      acc.fetchLog.count x := by
  intro urls
  induction urls with
  | nil => intro acc _; rfl
  | cons u rest ih =>
    intro acc hx
    have hcount : (Bundler.processUrl env v acc u).fetchLog.count x =
        acc.fetchLog.count x := by
      rcases processUrl_fetchLog env v acc u with h | h
      · rw [h]
      · rw [h, List.count_append]
        have h0 : List.count x [u] = 0 :=
          List.count_eq_zero.mpr (by simp [Ne.symm (hx u (by simp))])
        rw [h0, Nat.add_zero]
    cases he : (Bundler.processUrl env v acc u).err with
    | some e => rw [runFrom_cons_stop he, hcount]
    | none =>
      rw [runFrom_cons_go he,
        ih (Bundler.processUrl env v acc u) (fun y hy => hx y (by simp [hy])),
        hcount]

end Ensurepip

namespace Ensurepip

/-! ### Cache validity, and the clean-step characterization -/

/-- `cacheValid` unfolded: a present, verifier-accepted file. -/
theorem cacheValid_iff (env : Env) (fs : String → Option Bytes)
    (n : String) (s : Option String) :
    cacheValid env fs n s = true ↔
      ∃ c, fs n = some c ∧
        Bundler._is_content_sha256_valid env.H c s = true := by
  unfold cacheValid
  cases fs n <;> simp

/-- `cacheValid` is false exactly for a missing or rejected file. -/
theorem cacheValid_false_iff (env : Env) (fs : String → Option Bytes)
    (n : String) (s : Option String) :
    cacheValid env fs n s = false ↔
      (fs n = none ∨ ∃ c, fs n = some c ∧
        Bundler._is_content_sha256_valid env.H c s = false) := by
  unfold cacheValid
  cases fs n <;> simp

/-- `cacheValid` only looks at the file it names. -/
theorem cacheValid_congr {env : Env} {fs fs2 : String → Option Bytes}
    {n : String} (s : Option String) (h : fs n = fs2 n) :
    cacheValid env fs n s = cacheValid env fs2 n s := by
  unfold cacheValid
  rw [h]

/-- A clean loop-body step on a parsed descriptor either skipped a
verifier-accepted cache file, or (the file being missing or rejected)
fetched bytes the verifier accepts and wrote exactly them. -/
theorem processUrl_ok_parsed {env : Env} {v : Nat} {acc : RunResult}
    {url n : String} {s : Option String}
    (hp : Bundler._get_name_and_url url = .ok (n, url, s))
    (h : (Bundler.processUrl env v acc url).err = none) :
    (∃ c, acc.fs n = some c ∧
        Bundler._is_content_sha256_valid env.H c s = true ∧
        Bundler.processUrl env v acc url =
          { acc with stderrLog := acc.stderrLog ++
              (if v ≠ 0 then [skipMsg n] else []) }) ∨
    (∃ b, Bundler._is_content_sha256_valid env.H b s = true ∧
        env.fetch url = .ok b ∧
        (acc.fs n = none ∨ ∃ c, acc.fs n = some c ∧
          Bundler._is_content_sha256_valid env.H c s = false) ∧
        Bundler.processUrl env v acc url =
          { acc with
              stderrLog := (acc.stderrLog ++
                  (if v ≠ 0 then [downloadingMsg n] else [])) ++
                (if v ≠ 0 then [savingMsg n] else []),
              fetchLog := acc.fetchLog ++ [url],
              fs := setFile acc.fs n b }) := by
  by_cases hr : env.readFault n = true
  · rw [processUrl_read_fault hp hr] at h
    simp at h
  · have hr2 : env.readFault n = false := by simpa using hr
    by_cases hvalid : ∃ c, acc.fs n = some c ∧
        Bundler._is_content_sha256_valid env.H c s = true
    · obtain ⟨c, hfs, hv⟩ := hvalid
      exact Or.inl ⟨c, hfs, hv, processUrl_skip hp hr2 hfs hv⟩
    · have hmiss : acc.fs n = none ∨ ∃ c, acc.fs n = some c ∧
          Bundler._is_content_sha256_valid env.H c s = false := by
        cases hfs : acc.fs n with
        | none => exact Or.inl rfl
        | some c =>
          cases hv : Bundler._is_content_sha256_valid env.H c s with
          | false => exact Or.inr ⟨c, rfl, hv⟩
          | true => exact absurd ⟨c, hfs, hv⟩ hvalid
      cases hf : env.fetch url with
      | error e0 =>
        cases e0
        rw [processUrl_net_error hp hr2 hmiss hf] at h
        simp at h
      | ok b =>
        cases hvb : Bundler._is_content_sha256_valid env.H b s with
        | false =>
          rw [processUrl_bad_hash hp hr2 hmiss hf hvb] at h
          simp at h
        | true =>
          by_cases hw : env.writeFault n = true
          · rw [processUrl_write_fault hp hr2 hmiss hf hvb hw] at h
            simp at h
          · have hw2 : env.writeFault n = false := by simpa using hw
            exact Or.inr ⟨b, hvb, rfl, hmiss,
              processUrl_write hp hr2 hmiss hf hvb hw2⟩

/-- Postcondition of a clean loop run over descriptors with pairwise
distinct file names: every parsed descriptor ends with a
verifier-accepted cache file under its name, and its URL was fetched
exactly once more than before when its cache entry was initially
missing or rejected, and exactly as often as before when it was
initially accepted. -/
theorem runFrom_success_post (env : Env) (v : Nat) :
    ∀ (urls : List String) (acc : RunResult), acc.err = none →
    (Bundler.runFrom env v acc urls).err = none →
    (urls.map urlName).Nodup →
    ∀ u ∈ urls, ∀ n s, Bundler._get_name_and_url u = .ok (n, u, s) →
      (∃ c, (Bundler.runFrom env v acc urls).fs n = some c ∧
        Bundler._is_content_sha256_valid env.H c s = true) ∧
      (Bundler.runFrom env v acc urls).fetchLog.count u =
        acc.fetchLog.count u +
          (if cacheValid env acc.fs n s then 0 else 1) := by
  intro urls
  induction urls with
  | nil => intro acc _ _ _ u hu; cases hu
  | cons u0 t ih =>
    intro acc ha hclean hnodup u hu n s hp
    have he0 : (Bundler.processUrl env v acc u0).err = none :=
      runFrom_cons_err_none hclean
    rw [runFrom_cons_go he0] at hclean ⊢
    rw [List.map_cons, List.nodup_cons] at hnodup
    obtain ⟨hnotin, hnodup2⟩ := hnodup
    rcases List.mem_cons.mp hu with hu0 | hmem
    · subst hu0
      have hn : n = urlName u := (get_name_ok hp).1
      have hframe : ∀ x ∈ t, n ≠ urlName x := by
        intro x hx hcontra
        apply hnotin
        rw [← hn, hcontra]
        exact List.mem_map_of_mem urlName hx
      have hcframe : ∀ x ∈ t, x ≠ u := by
        intro x hx hcontra
        apply hnotin
        rw [← hcontra]
        exact List.mem_map_of_mem urlName hx
      rcases processUrl_ok_parsed hp he0 with
        ⟨c, hfs, hv, heq⟩ | ⟨b, hvb, hf, hmiss, heq⟩
      · constructor
        · refine ⟨c, ?_, hv⟩
          rw [runFrom_fs_frame env v t _ hframe, heq]
          exact hfs
        · rw [runFrom_count_frame env v u t _ hcframe, heq]
          have hcv : cacheValid env acc.fs n s = true :=
            (cacheValid_iff env acc.fs n s).mpr ⟨c, hfs, hv⟩
          rw [hcv]
          simp
      · constructor
        · refine ⟨b, ?_, hvb⟩
          rw [runFrom_fs_frame env v t _ hframe, heq]
          simp [setFile]
        · rw [runFrom_count_frame env v u t _ hcframe, heq]
          have hcv : cacheValid env acc.fs n s = false :=
            (cacheValid_false_iff env acc.fs n s).mpr hmiss
          rw [hcv]
          simp [List.count_append]
    · -- a descriptor in the tail
      have hres := ih (Bundler.processUrl env v acc u0) he0 hclean hnodup2
        u hmem n s hp
      have hn : n = urlName u := (get_name_ok hp).1
      have hne : urlName u ≠ urlName u0 := by
        intro hcontra
        exact hnotin (hcontra ▸ List.mem_map_of_mem urlName hmem)
      have hfsn : (Bundler.processUrl env v acc u0).fs n = acc.fs n :=
        processUrl_fs_frame env v acc u0 (hn ▸ hne)
      have hcu : (Bundler.processUrl env v acc u0).fetchLog.count u =
          acc.fetchLog.count u := by
        rcases processUrl_fetchLog env v acc u0 with hfl | hfl
        · rw [hfl]
        · rw [hfl, List.count_append]
          have hne2 : u ≠ u0 := by
            intro hcontra
            exact hne (hcontra ▸ rfl)
          have h0 : List.count u [u0] = 0 :=
            List.count_eq_zero.mpr (by simp [hne2])
          rw [h0, Nat.add_zero]
      rw [hres.2, hcu, cacheValid_congr s hfsn]
      exact ⟨hres.1, rfl⟩

end Ensurepip

namespace Ensurepip

/-- A loop run over descriptors that all parse, have no read faults and
are all accepted by the cache check is a no-op apart from progress
messages: the error state, the cache contents and the fetch log are
untouched. -/
theorem runFrom_all_valid (env : Env) (v : Nat) :
    ∀ (urls : List String) (acc : RunResult),
    (∀ u ∈ urls, ∃ n s, Bundler._get_name_and_url u = .ok (n, u, s) ∧
      env.readFault n = false ∧ cacheValid env acc.fs n s = true) →
    (Bundler.runFrom env v acc urls).err = acc.err ∧
    (Bundler.runFrom env v acc urls).fs = acc.fs ∧
    (Bundler.runFrom env v acc urls).fetchLog = acc.fetchLog := by
  intro urls
  induction urls with
  | nil => intro acc _; exact ⟨rfl, rfl, rfl⟩
  | cons u t ih =>
    intro acc hvalid
    obtain ⟨n, s, hp, hr, hc⟩ := hvalid u (by simp)
    obtain ⟨c, hfs, hv⟩ := (cacheValid_iff env acc.fs n s).mp hc
    have heq := processUrl_skip (v := v) hp hr hfs hv
    cases he : (Bundler.processUrl env v acc u).err with
    | some e =>
      rw [runFrom_cons_stop he, heq]
      exact ⟨rfl, rfl, rfl⟩
    | none =>
      rw [runFrom_cons_go he]
      have hnext := ih (Bundler.processUrl env v acc u)
        (by
          intro x hx
          obtain ⟨n2, s2, hp2, hr2, hc2⟩ := hvalid x (by simp [hx])
          refine ⟨n2, s2, hp2, hr2, ?_⟩
          rw [heq]
          exact hc2)
      rw [heq] at hnext ⊢
      exact hnext

end Ensurepip

namespace Ensurepip

/-! ### Claim theorems -/

/-- C4: `_is_content_sha256_valid` returns true exactly when the
expected hash is absent or equals the digest of the content; the
no-fetch (cache-accept) decision of the loop body on a present file is
equivalent to this same verifier accepting the cached content (so a
descriptor with an absent hash is valid whenever any bytes exist,
regardless of content); and `_download` accepts fetched bytes exactly
when this same verifier accepts them. -/
theorem c4_hash_verifier (H : HashFn) :
    (∀ (c : Bytes) (s : Option String),
      Bundler._is_content_sha256_valid H c s = true ↔
        (s = none ∨ s = some (H c))) ∧
    (∀ (env : Env) (v : Nat) (acc : RunResult) (url n : String)
        (s : Option String) (c : Bytes),
      Bundler._get_name_and_url url = .ok (n, url, s) →
      env.readFault n = false →
      acc.fs n = some c →
      ((Bundler.processUrl env v acc url).fetchLog = acc.fetchLog ↔
        Bundler._is_content_sha256_valid env.H c s = true)) ∧
    (∀ (fetch : String → Except Unit Bytes) (url : String)
        (s : Option String) (b : Bytes),
      fetch url = .ok b →
      (Bundler._download H fetch url s = .ok b ↔
        Bundler._is_content_sha256_valid H b s = true)) := by
  refine ⟨?_, ?_, ?_⟩
  · intro c s
    cases s <;> simp [Bundler._is_content_sha256_valid]
  · intro env v acc url n s c hp hr hfs
    rcases Bool.eq_false_or_eq_true
        (Bundler._is_content_sha256_valid env.H c s) with hv | hv
    · rw [processUrl_skip hp hr hfs hv]
      simp [hv]
    · have hmiss : acc.fs n = none ∨ ∃ c2, acc.fs n = some c2 ∧
          Bundler._is_content_sha256_valid env.H c2 s = false :=
        Or.inr ⟨c, hfs, hv⟩
      rw [hv]
      constructor
      · intro hlog
        exfalso
        cases hf : env.fetch url with
        | error e0 =>
          cases e0
          rw [processUrl_net_error hp hr hmiss hf] at hlog
          simp at hlog
        | ok b =>
          rcases Bool.eq_false_or_eq_true
              (Bundler._is_content_sha256_valid env.H b s) with hvb | hvb
          · by_cases hw : env.writeFault n = true
            · rw [processUrl_write_fault hp hr hmiss hf hvb hw] at hlog
              simp at hlog
            · have hw2 : env.writeFault n = false := by simpa using hw
              rw [processUrl_write hp hr hmiss hf hvb hw2] at hlog
              simp at hlog
          · rw [processUrl_bad_hash hp hr hmiss hf hvb] at hlog
            simp at hlog
      · intro hcontra
        cases hcontra
  · intro fetch url s b hf
    unfold Bundler._download
    rw [hf]
    cases hv : Bundler._is_content_sha256_valid H b s <;> simp [hv]

/-- C4 witness: the three parts of `c4_hash_verifier` at the concrete
fixture (digest `wH`, content `[1]`, expected hash `aa`, a cache already
holding `[1]` under `f.whl`). -/
theorem c4_hash_verifier_witness :
    (Bundler._is_content_sha256_valid wH [1] (some "aa") = true ↔
      (some "aa" = none ∨ (some "aa" : Option String) = some (wH [1]))) ∧
    ((Bundler.processUrl wEnv 1 ⟨none, wFsValid, [], [], []⟩ wUrl1).fetchLog
        = [] ↔
      Bundler._is_content_sha256_valid wEnv.H [1] (some "aa") = true) ∧
    (Bundler._download wH wEnv.fetch wUrl1 (some "aa") = .ok [1] ↔
      Bundler._is_content_sha256_valid wH [1] (some "aa") = true) := by
  refine ⟨(c4_hash_verifier wH).1 [1] (some "aa"), ?_, ?_⟩
  · exact (c4_hash_verifier wH).2.1 wEnv 1 ⟨none, wFsValid, [], [], []⟩
      wUrl1 "f.whl" (some "aa") [1] (by decide) (by decide) (by decide)
  · exact (c4_hash_verifier wH).2.2 wEnv.fetch wUrl1 (some "aa") [1]
      (by decide)

/-- C5: the example URL with a `sha256=abc123` fragment parses to the
expected file name and hash; but the same URL without the fragment does
not return an absent hash as claimed: `_get_name_and_url` raises
`TypeError`, because `parse_qs(fragment).get("sha256")` is `None` there
and `iter(None)` is not iterable (the `None` default of `next` is
unreachable). -/
theorem c5_parser_no_fragment_raises :
    Bundler._get_name_and_url
        "https://host/a/b/name-1.2.3-py3-none-any.whl#sha256=abc123" =
      .ok ("name-1.2.3-py3-none-any.whl",
        "https://host/a/b/name-1.2.3-py3-none-any.whl#sha256=abc123",
        some "abc123") ∧
    Bundler._get_name_and_url
        "https://host/a/b/name-1.2.3-py3-none-any.whl" =
      .error .typeError := by
  exact ⟨by decide, by decide⟩

/-- C9: the hash comparison is exact string equality against the
digest, so any expected hash differing from the digest string (for
example a case variant of it) is rejected; consequently a descriptor
whose cache content digests correctly but whose expected hash is
spelled differently re-fetches once and then fails with the
`ValueError` naming the URL. -/
theorem c9_exact_hash_comparison :
    (∀ (H : HashFn) (c : Bytes) (s : String), s ≠ H c →
      Bundler._is_content_sha256_valid H c (some s) = false) ∧
    (∀ (env : Env) (v : Nat) (url n s : String) (c b : Bytes)
        (fs0 : String → Option Bytes),
      Bundler._get_name_and_url url = .ok (n, url, some s) →
      env.readFault n = false →
      fs0 n = some c → s ≠ env.H c →
      env.fetch url = .ok b → s ≠ env.H b →
      (Bundler._ensure_wheels_are_downloaded env v [url] fs0).fetchLog
          = [url] ∧
      (Bundler._ensure_wheels_are_downloaded env v [url] fs0).err =
        some (.valueError (invalidPayloadMsg url))) := by
  constructor
  · intro H c s hs
    simp [Bundler._is_content_sha256_valid, hs]
  · intro env v url n s c b fs0 hp hr hfs hc hf hb
    have hvc : Bundler._is_content_sha256_valid env.H c (some s) = false := by
      simp [Bundler._is_content_sha256_valid, hc]
    have hvb : Bundler._is_content_sha256_valid env.H b (some s) = false := by
      simp [Bundler._is_content_sha256_valid, hb]
    have hstep := @processUrl_bad_hash env v ⟨none, fs0, [], [], []⟩
      url n (some s) b hp hr (Or.inr ⟨c, hfs, hvc⟩) hf hvb
    have herr : (Bundler.processUrl env v ⟨none, fs0, [], [], []⟩ url).err =
        some (.valueError (invalidPayloadMsg url)) := by
      rw [hstep]
    unfold Bundler._ensure_wheels_are_downloaded
    rw [runFrom_cons_stop herr, hstep]
    exact ⟨rfl, rfl⟩

/-- C9 witness: `c9_exact_hash_comparison` at the fixture: expected
hash `AA` (uppercase), cache content `[1]` whose digest is the
lowercase `aa`, the fetch returning the same bytes `[1]`. -/
theorem c9_exact_hash_comparison_witness :
    Bundler._is_content_sha256_valid wH [1] (some "AA") = false ∧
    (Bundler._ensure_wheels_are_downloaded wEnvUp 0 [wUrlUp] wFsValid).fetchLog
        = [wUrlUp] ∧
    (Bundler._ensure_wheels_are_downloaded wEnvUp 0 [wUrlUp]
        wFsValid).err = some (.valueError (invalidPayloadMsg wUrlUp)) := by
  refine ⟨c9_exact_hash_comparison.1 wH [1] "AA" (by decide), ?_⟩
  exact c9_exact_hash_comparison.2 wEnvUp 0 wUrlUp "f.whl" "AA" [1] [1]
    wFsValid (by decide) (by decide) (by decide) (by decide) (by decide)
    (by decide)

/-- C10: a fragment carrying only `sha256=` (empty value) does not make
the parser return an absent hash as claimed: the empty value is indeed
dropped by the query-string parsing, the key is then absent, and the
code raises `TypeError` (`iter(None)`); the fragment is stripped of
surrounding whitespace before parsing, and an empty value alongside a
nonempty one is dropped. -/
theorem c10_empty_value_raises :
    Bundler._extract_sha256_from_url_fragment
        "https://host/x.whl#sha256=" = .error .typeError ∧
    Bundler._extract_sha256_from_url_fragment
        "https://host/x.whl#  sha256=abc  " = .ok (some "abc") ∧
    Bundler._extract_sha256_from_url_fragment
        "https://host/x.whl#sha256=&sha256=zz" = .ok (some "zz") := by
  exact ⟨by decide, by decide, by decide⟩

end Ensurepip

namespace Ensurepip

/-- C1: after a clean `_ensure_wheels_are_downloaded` run over
descriptors with pairwise distinct file names, every descriptor
carrying an expected hash has a cache file under its name whose digest
equals that hash; and when the pre-existing file's content did not
match, the run fetched that descriptor's URL exactly once (and the file
was overwritten, never deleted: it still holds content). -/
theorem c1_success_hash_matches (env : Env) (v : Nat)
    (urls : List String) (fs0 : String → Option Bytes)
    (hnames : (urls.map urlName).Nodup)
    (hok : (Bundler._ensure_wheels_are_downloaded env v urls fs0).err
      = none) :
    ∀ u ∈ urls, ∀ (n exp : String),
      Bundler._get_name_and_url u = .ok (n, u, some exp) →
      (∃ c, (Bundler._ensure_wheels_are_downloaded env v urls fs0).fs n
          = some c ∧ env.H c = exp) ∧
      (∀ c0, fs0 n = some c0 → env.H c0 ≠ exp →
        (Bundler._ensure_wheels_are_downloaded env v urls
            fs0).fetchLog.count u = 1) := by
  intro u hu n exp hp
  unfold Bundler._ensure_wheels_are_downloaded at hok ⊢
  have hpost := runFrom_success_post env v urls ⟨none, fs0, [], [], []⟩
    rfl hok hnames u hu n (some exp) hp
  have hproj : (⟨none, fs0, [], [], []⟩ : RunResult).fs = fs0 := rfl
  have hproj2 : (⟨none, fs0, [], [], []⟩ : RunResult).fetchLog =
    ([] : List String) := rfl
  rw [hproj, hproj2] at hpost
  constructor
  · obtain ⟨c, hc, hv⟩ := hpost.1
    refine ⟨c, hc, ?_⟩
    have := of_decide_eq_true hv
    exact this.symm
  · intro c0 h0 hne
    have hvc : Bundler._is_content_sha256_valid env.H c0 (some exp)
        = false := by
      simp [Bundler._is_content_sha256_valid]
      intro hcontra
      exact absurd hcontra.symm hne
    have hcv : cacheValid env fs0 n (some exp) = false :=
      (cacheValid_false_iff env fs0 n (some exp)).mpr
        (Or.inr ⟨c0, h0, hvc⟩)
    rw [hpost.2, hcv]
    simp

/-- C1 witness: `c1_success_hash_matches` on the one-descriptor fixture
whose cache holds stale content `[9]` (digest `xx`, expected `aa`). -/
theorem c1_success_hash_matches_witness :
    (∃ c, (Bundler._ensure_wheels_are_downloaded wEnv 1 [wUrl1]
        wFsStale).fs "f.whl" = some c ∧ wEnv.H c = "aa") ∧
    (Bundler._ensure_wheels_are_downloaded wEnv 1 [wUrl1]
        wFsStale).fetchLog.count wUrl1 = 1 := by
  have h := c1_success_hash_matches wEnv 1 [wUrl1] wFsStale (by decide)
    (by decide) wUrl1 (List.mem_singleton.mpr rfl) "f.whl" "aa" (by decide)
  exact ⟨h.1, h.2 [9] (by decide) (by decide)⟩

/-- C2: when the loop reaches a descriptor whose cache entry is missing
or rejected and the fetch returns bytes whose digest does not equal the
expected hash, the run raises the `ValueError` naming that URL, the
cache is exactly as the already-processed part of the list left it (in
particular the descriptor's own pre-existing file, untouched by earlier
descriptors, is byte-for-byte unchanged), the offending URL is the last
fetch performed, and no later descriptor is processed. -/
theorem c2_integrity_error (env : Env) (v : Nat) (l1 l2 : List String)
    (u n exp : String) (b : Bytes) (fs0 : String → Option Bytes)
    (hp : Bundler._get_name_and_url u = .ok (n, u, some exp))
    (hpre : (Bundler.runFrom env v ⟨none, fs0, [], [], []⟩ l1).err = none)
    (hr : env.readFault n = false)
    (hcache : cacheValid env
      (Bundler.runFrom env v ⟨none, fs0, [], [], []⟩ l1).fs n (some exp)
      = false)
    (hf : env.fetch u = .ok b)
    (hbad : env.H b ≠ exp) :
    (Bundler._ensure_wheels_are_downloaded env v (l1 ++ u :: l2) fs0).err
      = some (.valueError (invalidPayloadMsg u)) ∧
    (∀ m, (Bundler._ensure_wheels_are_downloaded env v (l1 ++ u :: l2)
        fs0).fs m =
      (Bundler.runFrom env v ⟨none, fs0, [], [], []⟩ l1).fs m) ∧
    (Bundler._ensure_wheels_are_downloaded env v (l1 ++ u :: l2)
        fs0).fetchLog =
      (Bundler.runFrom env v ⟨none, fs0, [], [], []⟩ l1).fetchLog ++ [u] ∧
    ((∀ x ∈ l1, n ≠ urlName x) →
      (Bundler._ensure_wheels_are_downloaded env v (l1 ++ u :: l2)
          fs0).fs n = fs0 n) := by
  have hvb : Bundler._is_content_sha256_valid env.H b (some exp)
      = false := by
    simp [Bundler._is_content_sha256_valid]
    intro hcontra
    exact absurd hcontra.symm hbad
  have hmiss := (cacheValid_false_iff env
    (Bundler.runFrom env v ⟨none, fs0, [], [], []⟩ l1).fs n
    (some exp)).mp hcache
  have hstep := @processUrl_bad_hash env v
    (Bundler.runFrom env v ⟨none, fs0, [], [], []⟩ l1)
    u n (some exp) b hp hr hmiss hf hvb
  have herr : (Bundler.processUrl env v
      (Bundler.runFrom env v ⟨none, fs0, [], [], []⟩ l1) u).err =
      some (.valueError (invalidPayloadMsg u)) := by
    rw [hstep]
  unfold Bundler._ensure_wheels_are_downloaded
  rw [runFrom_append env v l1 (u :: l2) ⟨none, fs0, [], [], []⟩ rfl,
    if_pos hpre, runFrom_cons_stop herr, hstep]
  refine ⟨rfl, fun m => rfl, rfl, fun hfr => ?_⟩
  exact runFrom_fs_frame env v l1 ⟨none, fs0, [], [], []⟩ hfr

/-- C2 witness: `c2_integrity_error` on the one-descriptor fixture with
stale cache `[9]` and a network stub returning `[3]` (digest `xx`, not
the expected `aa`): the run fails with the `ValueError` naming the URL,
fetched once, and the stale file is unchanged. -/
theorem c2_integrity_error_witness :
    (Bundler._ensure_wheels_are_downloaded wEnvBad 0 [wUrl1]
        wFsStale).err = some (.valueError (invalidPayloadMsg wUrl1)) ∧
    (Bundler._ensure_wheels_are_downloaded wEnvBad 0 [wUrl1]
        wFsStale).fetchLog = [wUrl1] ∧
    (Bundler._ensure_wheels_are_downloaded wEnvBad 0 [wUrl1]
        wFsStale).fs "f.whl" = some [9] := by
  have h := c2_integrity_error wEnvBad 0 [] [] wUrl1 "f.whl" "aa" [3]
    wFsStale (by decide) (by decide) (by decide) (by decide) (by decide)
    (by decide)
  simp only [List.nil_append] at h
  refine ⟨h.1, ?_, ?_⟩
  · rw [h.2.2.1]
    rfl
  · rw [h.2.2.2 (by simp)]
    decide

/-- C3: on a cache state where every descriptor parses, has no read
fault and is accepted by the cache check, the populator raises nothing,
performs zero network fetches, changes no file; and a second run on the
resulting cache again performs zero network fetches. -/
theorem c3_idempotent (env : Env) (v : Nat) (urls : List String)
    (fs0 : String → Option Bytes)
    (hvalid : ∀ u ∈ urls, ∃ n s,
      Bundler._get_name_and_url u = .ok (n, u, s) ∧
      env.readFault n = false ∧ cacheValid env fs0 n s = true) :
    (Bundler._ensure_wheels_are_downloaded env v urls fs0).err = none ∧
    (Bundler._ensure_wheels_are_downloaded env v urls fs0).fetchLog
      = [] ∧
    (Bundler._ensure_wheels_are_downloaded env v urls fs0).fs = fs0 ∧
    (Bundler._ensure_wheels_are_downloaded env v urls
        ((Bundler._ensure_wheels_are_downloaded env v urls
          fs0).fs)).fetchLog = [] := by
  unfold Bundler._ensure_wheels_are_downloaded
  have h := runFrom_all_valid env v urls ⟨none, fs0, [], [], []⟩ hvalid
  refine ⟨h.1, h.2.2, h.2.1, ?_⟩
  rw [h.2.1]
  exact (runFrom_all_valid env v urls ⟨none, fs0, [], [], []⟩ hvalid).2.2

/-- C3 witness: `c3_idempotent` on the one-descriptor fixture whose
cache already holds valid content `[1]`. -/
theorem c3_idempotent_witness :
    (Bundler._ensure_wheels_are_downloaded wEnv 1 [wUrl1] wFsValid).err
      = none ∧
    (Bundler._ensure_wheels_are_downloaded wEnv 1 [wUrl1]
        wFsValid).fetchLog = [] ∧
    (Bundler._ensure_wheels_are_downloaded wEnv 1 [wUrl1]
        ((Bundler._ensure_wheels_are_downloaded wEnv 1 [wUrl1]
          wFsValid).fs)).fetchLog = [] := by
  have h := c3_idempotent wEnv 1 [wUrl1] wFsValid (by
    intro u hu
    rw [List.mem_singleton] at hu
    subst hu
    exact ⟨"f.whl", some "aa", by decide, by decide, by decide⟩)
  exact ⟨h.1, h.2.1, h.2.2.2⟩

end Ensurepip

namespace Ensurepip

/-- C6: a missing cache file is swallowed as a cache miss — the loop
body proceeds to fetch rather than raising (first part); any other read
fault propagates as an error that changes nothing (second part); and a
run that raised did so at exactly one descriptor, after cleanly
processing a leading part of the list and leaving the rest unprocessed
(third part): there is no partial-success result. -/
theorem c6_error_propagation (env : Env) (v : Nat) :
    (∀ (acc : RunResult) (url n : String) (s : Option String),
      Bundler._get_name_and_url url = .ok (n, url, s) →
      env.readFault n = false →
      acc.fs n = none →
      (Bundler.processUrl env v acc url).fetchLog =
        acc.fetchLog ++ [url]) ∧
    (∀ (acc : RunResult) (url n : String) (s : Option String),
      Bundler._get_name_and_url url = .ok (n, url, s) →
      env.readFault n = true →
      Bundler.processUrl env v acc url =
        { acc with err := some .osError }) ∧
    (∀ (urls : List String) (fs0 : String → Option Bytes) (e : PyError),
      (Bundler._ensure_wheels_are_downloaded env v urls fs0).err
        = some e →
      ∃ l1 u l2, urls = l1 ++ u :: l2 ∧
        (Bundler.runFrom env v ⟨none, fs0, [], [], []⟩ l1).err = none ∧
        Bundler._ensure_wheels_are_downloaded env v urls fs0 =
          Bundler.processUrl env v
            (Bundler.runFrom env v ⟨none, fs0, [], [], []⟩ l1) u) := by
  refine ⟨?_, ?_, ?_⟩
  · intro acc url n s hp hr hnone
    have hmiss : acc.fs n = none ∨ ∃ c2, acc.fs n = some c2 ∧
        Bundler._is_content_sha256_valid env.H c2 s = false :=
      Or.inl hnone
    cases hf : env.fetch url with
    | error e0 =>
      cases e0
      rw [processUrl_net_error hp hr hmiss hf]
    | ok b =>
      rcases Bool.eq_false_or_eq_true
          (Bundler._is_content_sha256_valid env.H b s) with hvb | hvb
      · by_cases hw : env.writeFault n = true
        · rw [processUrl_write_fault hp hr hmiss hf hvb hw]
        · have hw2 : env.writeFault n = false := by simpa using hw
          rw [processUrl_write hp hr hmiss hf hvb hw2]
      · rw [processUrl_bad_hash hp hr hmiss hf hvb]
  · intro acc url n s hp hr
    exact processUrl_read_fault hp hr
  · intro urls fs0 e herr
    unfold Bundler._ensure_wheels_are_downloaded at herr ⊢
    exact runFrom_error_split env v urls ⟨none, fs0, [], [], []⟩ rfl e herr

/-- C6 witness: `c6_error_propagation` at the fixtures — a missing
`f.whl` leads to a fetch of the URL (not an error), and the failing run
with the bad network stub decomposes as an empty clean part followed by
the failing descriptor. -/
theorem c6_error_propagation_witness :
    (Bundler.processUrl wEnv 0 ⟨none, wFsEmpty, [], [], []⟩
        wUrl1).fetchLog = [] ++ [wUrl1] ∧
    (∃ l1 u l2, [wUrl1] = l1 ++ u :: l2 ∧
      (Bundler.runFrom wEnvBad 0
        ⟨none, wFsEmpty, [], [], []⟩ l1).err = none ∧
      Bundler._ensure_wheels_are_downloaded wEnvBad 0 [wUrl1] wFsEmpty =
        Bundler.processUrl wEnvBad 0
          (Bundler.runFrom wEnvBad 0 ⟨none, wFsEmpty, [], [], []⟩ l1)
          u) := by
  constructor
  · exact (c6_error_propagation wEnv 0).1 ⟨none, wFsEmpty, [], [], []⟩
      wUrl1 "f.whl" (some "aa") (by decide) (by decide) (by decide)
  · exact (c6_error_propagation wEnvBad 0).2.2 [wUrl1] wFsEmpty
      (.valueError (invalidPayloadMsg wUrl1)) (by decide)

/-- C7: at verbosity 0 the populator emits nothing at all; at any
verbosity it writes nothing to standard output (progress goes to the
diagnostic stream only); and on two uncached descriptors with distinct
file names whose fetches return verifier-accepted content, a
verbosity-1 run emits exactly the four lines downloading/saving for the
first then downloading/saving for the second. -/
theorem c7_verbosity (env : Env) :
    (∀ (urls : List String) (fs0 : String → Option Bytes),
      (Bundler._ensure_wheels_are_downloaded env 0 urls fs0).stderrLog
          = [] ∧
      (Bundler._ensure_wheels_are_downloaded env 0 urls fs0).stdoutLog
          = []) ∧
    (∀ (v : Nat) (urls : List String) (fs0 : String → Option Bytes),
      (Bundler._ensure_wheels_are_downloaded env v urls fs0).stdoutLog
        = []) ∧
    (∀ (u1 u2 n1 n2 e1 e2 : String) (b1 b2 : Bytes)
        (fs0 : String → Option Bytes),
      Bundler._get_name_and_url u1 = .ok (n1, u1, some e1) →
      Bundler._get_name_and_url u2 = .ok (n2, u2, some e2) →
      n1 ≠ n2 →
      env.readFault n1 = false → env.readFault n2 = false →
      env.writeFault n1 = false → env.writeFault n2 = false →
      fs0 n1 = none → fs0 n2 = none →
      env.fetch u1 = .ok b1 → env.fetch u2 = .ok b2 →
      Bundler._is_content_sha256_valid env.H b1 (some e1) = true →
      Bundler._is_content_sha256_valid env.H b2 (some e2) = true →
      (Bundler._ensure_wheels_are_downloaded env 1 [u1, u2]
          fs0).stderrLog =
        [downloadingMsg n1, savingMsg n1,
         downloadingMsg n2, savingMsg n2]) := by
  refine ⟨?_, ?_, ?_⟩
  · intro urls fs0
    unfold Bundler._ensure_wheels_are_downloaded
    exact ⟨runFrom_silent env urls ⟨none, fs0, [], [], []⟩,
      runFrom_stdout env 0 urls ⟨none, fs0, [], [], []⟩⟩
  · intro v urls fs0
    unfold Bundler._ensure_wheels_are_downloaded
    exact runFrom_stdout env v urls ⟨none, fs0, [], [], []⟩
  · intro u1 u2 n1 n2 e1 e2 b1 b2 fs0 hp1 hp2 hne hr1 hr2 hw1 hw2
      h01 h02 hf1 hf2 hv1 hv2
    unfold Bundler._ensure_wheels_are_downloaded
    have hn1 : n1 = urlName u1 := (get_name_ok hp1).1
    have hstep1 := @processUrl_write env 1 ⟨none, fs0, [], [], []⟩
      u1 n1 (some e1) b1 hp1 hr1 (Or.inl h01) hf1 hv1 hw1
    have hstep1b : Bundler.processUrl env 1 ⟨none, fs0, [], [], []⟩ u1 =
        ⟨none, setFile fs0 n1 b1,
          [downloadingMsg n1, savingMsg n1], [], [u1]⟩ := by
      rw [hstep1]
      rfl
    have he1 : (Bundler.processUrl env 1 ⟨none, fs0, [], [], []⟩
        u1).err = none := by
      rw [hstep1b]
    rw [runFrom_cons_go he1, hstep1b]
    have h02b : (setFile fs0 n1 b1) n2 = none := by
      unfold setFile
      rw [if_neg (fun hcontra => hne (hcontra.symm)), h02]
    have hstep2 := @processUrl_write env 1
      ⟨none, setFile fs0 n1 b1,
        [downloadingMsg n1, savingMsg n1], [], [u1]⟩
      u2 n2 (some e2) b2 hp2 hr2 (Or.inl h02b) hf2 hv2 hw2
    have hstep2b : Bundler.processUrl env 1
        ⟨none, setFile fs0 n1 b1,
          [downloadingMsg n1, savingMsg n1], [], [u1]⟩ u2 =
        ⟨none, setFile (setFile fs0 n1 b1) n2 b2,
          [downloadingMsg n1, savingMsg n1,
           downloadingMsg n2, savingMsg n2], [], [u1, u2]⟩ := by
      rw [hstep2]
      rfl
    have he2 : (Bundler.processUrl env 1
        ⟨none, setFile fs0 n1 b1,
          [downloadingMsg n1, savingMsg n1], [], [u1]⟩ u2).err
        = none := by
      rw [hstep2b]
    rw [runFrom_cons_go he2, hstep2b, runFrom_nil]

end Ensurepip

namespace Ensurepip

/-- C7 witness: `c7_verbosity` on the two-descriptor fixture with an
empty cache: silent at verbosity 0, nothing on standard output, and the
four download/save lines in order at verbosity 1. -/
theorem c7_verbosity_witness :
    (Bundler._ensure_wheels_are_downloaded wEnv 0 [wUrl1, wUrl2]
        wFsEmpty).stderrLog = [] ∧
    (Bundler._ensure_wheels_are_downloaded wEnv 1 [wUrl1, wUrl2]
        wFsEmpty).stdoutLog = [] ∧
    (Bundler._ensure_wheels_are_downloaded wEnv 1 [wUrl1, wUrl2]
        wFsEmpty).stderrLog =
      [downloadingMsg "f.whl", savingMsg "f.whl",
       downloadingMsg "g.whl", savingMsg "g.whl"] := by
  refine ⟨((c7_verbosity wEnv).1 [wUrl1, wUrl2] wFsEmpty).1,
    (c7_verbosity wEnv).2.1 1 [wUrl1, wUrl2] wFsEmpty, ?_⟩
  exact (c7_verbosity wEnv).2.2 wUrl1 wUrl2 "f.whl" "g.whl" "aa" "bb"
    [1] [2] wFsEmpty (by decide) (by decide) (by decide) (by decide)
    (by decide) (by decide) (by decide) (by decide) (by decide)
    (by decide) (by decide) (by decide) (by decide)

/-- The two copies of the loop body are the same function. -/
theorem pkg_processUrl_eq (env : Env) (v : Nat) (acc : RunResult)
    (url : String) :
    Pkg.processUrl env v acc url = Bundler.processUrl env v acc url := rfl

/-- `Pkg.runFrom` unfolding on a stopping step. -/
theorem pkg_runFrom_cons_stop {env : Env} {v : Nat} {acc : RunResult}
    {u : String} {rest : List String} {e : PyError}
    (h : (Pkg.processUrl env v acc u).err = some e) :
    Pkg.runFrom env v acc (u :: rest) = Pkg.processUrl env v acc u := by
  simp only [Pkg.runFrom, h]

/-- `Pkg.runFrom` unfolding on a continuing step. -/
theorem pkg_runFrom_cons_go {env : Env} {v : Nat} {acc : RunResult}
    {u : String} {rest : List String}
    (h : (Pkg.processUrl env v acc u).err = none) :
    Pkg.runFrom env v acc (u :: rest) =
      Pkg.runFrom env v (Pkg.processUrl env v acc u) rest := by
  simp only [Pkg.runFrom, h]

/-- The two copies of the populator loop agree on every input. -/
theorem pkg_runFrom_eq (env : Env) (v : Nat) :
    ∀ (urls : List String) (acc : RunResult),
    Pkg.runFrom env v acc urls = Bundler.runFrom env v acc urls := by
  intro urls
  induction urls with
  | nil => intro acc; rfl
  | cons u t ih =>
    intro acc
    cases he : (Bundler.processUrl env v acc u).err with
    | some e =>
      rw [runFrom_cons_stop he,
        pkg_runFrom_cons_stop (by rw [pkg_processUrl_eq]; exact he),
        pkg_processUrl_eq]
    | none =>
      rw [runFrom_cons_go he,
        pkg_runFrom_cons_go (by rw [pkg_processUrl_eq]; exact he),
        pkg_processUrl_eq, ih]

/-- C8: the copies of the core logic in `__init__.py` and in
`_bundler.py` are extensionally equal: the URL parser, the fragment
hash extractor and the verifier agree on every input, and the two cache
populators produce identical run results (error, cache state, logs)
from identical environments (digest, fetch results, faults) and initial
caches. -/
theorem c8_copies_equivalent :
    (∀ url : String,
      Pkg._get_name_and_url url = Bundler._get_name_and_url url) ∧
    (∀ url : String,
      Pkg._extract_sha256_from_url_fragment url =
        Bundler._extract_sha256_from_url_fragment url) ∧
    (∀ (H : HashFn) (c : Bytes) (s : Option String),
      Pkg._is_content_sha256_valid H c s =
        Bundler._is_content_sha256_valid H c s) ∧
    (∀ (env : Env) (verbosity : Nat) (urls : List String)
        (fs0 : String → Option Bytes),
      Pkg._ensure_wheels_are_downloaded env verbosity urls fs0 =
        Bundler._ensure_wheels_are_downloaded env verbosity urls fs0) := by
  refine ⟨fun url => rfl, fun url => rfl, fun H c s => rfl, ?_⟩
  intro env verbosity urls fs0
  unfold Pkg._ensure_wheels_are_downloaded
    Bundler._ensure_wheels_are_downloaded
  exact pkg_runFrom_eq env verbosity urls _

end Ensurepip
